import Mathlib

/-!
Shallow embedding of the game-session engine (`services/gameStore.js` and the
persistence adapter) of the ultimate-chess-platform backend.

The position validator (chess.js) is an external capability; it is modelled as
an abstract record `Validator Pos` over an opaque position type `Pos`.  All
monetary-style quantities (milliseconds) are `Int`; JavaScript string/null
truthiness and strict equality (`===`) are modelled explicitly where the code
relies on them.
-/

namespace GameStore

/-- A chess color, `'w' | 'b'` in the source. -/
inductive Color : Type
  | w
  | b
deriving DecidableEq, Repr

/-- The opponent of a color (`chess.turn() === 'w' ? 'b' : 'w'`). -/
def Color.other : Color → Color
  | .w => .b
  | .b => .w

/-- A stored move record `{from, to, promotion?}`. -/
structure MoveRec : Type where
  fromSq : String
  toSq : String
  promotion : Option String
deriving DecidableEq, Repr

/-- A JavaScript value standing for a `playerId` request field:
`undefined`, `null`, or a string.  The distinction matters because the code
compares it with `===` to slot ids that are `null | string`. -/
inductive JStr : Type
  | undefv
  | nullv
  | str (s : String)
deriving DecidableEq, Repr

/-- JS truthiness of a `playerId`-like value (`!playerId` / `if (playerId)`):
`undefined`, `null` and the empty string are falsy. -/
def JStr.truthy : JStr → Bool
  | .str s => !(s == "")
  | _ => false

/-- Extract the string of a truthy `JStr` (total helper; only used where
`truthy` already holds). -/
def JStr.toStr : JStr → String
  | .str s => s
  | _ => ""

/-- JS strict equality `x === slot` between a request value and a stored slot
id (`null` or a string): `null === null` is true, `undefined === null` is
false, strings compare by value. -/
def jsStrictEq : JStr → Option String → Bool
  | .str s, some t => s == t
  | .nullv, none => true
  | _, _ => false

/-- JS `x || null` on a nullable string: the empty string collapses to null. -/
def jsStrOrNull : Option String → Option String
  | some s => if s = "" then none else some s
  | none => none

/-- JS `Boolean(x)` on a nullable string (`Boolean(game.players.w.id)`). -/
def truthyStr : Option String → Bool
  | some s => !(s == "")
  | none => false

/-- `normalizeColor`: `'w'`/`'b'` pass through, anything else is `null`. -/
def normalizeColor : Option String → Option Color
  | some s => if s = "w" then some .w else if s = "b" then some .b else none
  | none => none

/-- `safePromotion`: lowercase and keep only `q|r|b|n`, else `undefined`
(a falsy input returns `undefined`). -/
def safePromotion : Option String → Option String
  | none => none
  | some p =>
      if p = "" then none
      else
        let promo := p.toLower
        if promo = "q" ∨ promo = "r" ∨ promo = "b" ∨ promo = "n" then some promo
        else none

/-- The external rules-engine capability (chess.js surface consumed by the
store).  `move` applies a move record to a position and returns the applied
(normalized) record together with the new position, or `none` when the move is
rejected (legacy chess.js `move()` returns `null` and leaves the position
unchanged).  `defaultPos` is the start position (`new Chess()`). -/
structure Validator (Pos : Type) : Type where
  move : Pos → MoveRec → Option (MoveRec × Pos)
  turn : Pos → Color
  isCheck : Pos → Bool
  isCheckmate : Pos → Bool
  isStalemate : Pos → Bool
  isThreefoldRepetition : Pos → Bool
  isInsufficientMaterial : Pos → Bool
  isDraw : Pos → Bool
  isGameOver : Pos → Bool
  defaultPos : Pos

/-- One player slot `{id, name, present}`. -/
structure Player : Type where
  id : Option String
  name : Option String
  present : Bool
deriving DecidableEq, Repr

/-- The two player slots. -/
structure Players : Type where
  w : Player
  b : Player
deriving DecidableEq, Repr

/-- The clock block of a session. -/
structure Clocks : Type where
  initialMs : Int
  incrementMs : Int
  wRemainingMs : Int
  bRemainingMs : Int
  activeColor : Option Color
  running : Bool
  lastTickAt : Option Int
deriving DecidableEq, Repr

/-- `status.state ∈ {waiting, active, finished}`. -/
inductive GState : Type
  | waiting
  | active
  | finished
deriving DecidableEq, Repr

/-- The status block `{state, winner, reason}`. -/
structure Status : Type where
  state : GState
  winner : Option Color
  reason : Option String
deriving DecidableEq, Repr

/-- An in-memory game session. -/
structure Game (Pos : Type) : Type where
  id : String
  createdAt : String
  updatedAt : String
  initialFen : Pos
  moves : List MoveRec
  moveCursor : Nat
  chess : Pos
  players : Players
  spectators : List (String × Option String)
  clocks : Clocks
  status : Status
deriving DecidableEq

/-- Result of `computeTermination`. -/
structure Termination : Type where
  winner : Option Color
  reason : String
deriving DecidableEq, Repr

/-- `computeTermination(chess)`: `null` when the game is not over, else the
winner/reason derived from the terminal predicates, checked in source order. -/
def computeTermination {Pos : Type} (V : Validator Pos) (p : Pos) : Option Termination :=
  if !(V.isGameOver p) then none
  else if V.isCheckmate p then some ⟨some (V.turn p).other, "checkmate"⟩
  else if V.isStalemate p then some ⟨none, "stalemate"⟩
  else if V.isThreefoldRepetition p then some ⟨none, "threefold"⟩
  else if V.isInsufficientMaterial p then some ⟨none, "insufficient_material"⟩
  else if V.isDraw p then some ⟨none, "draw"⟩
  else some ⟨none, "game_over"⟩

/-- The effective clock snapshot returned by `_effectiveClocksSnapshot`. -/
structure ClockSnap : Type where
  initialMs : Int
  incrementMs : Int
  wRemainingMs : Int
  bRemainingMs : Int
  activeColor : Option Color
  running : Bool
deriving DecidableEq, Repr

/-- `_effectiveClocksSnapshot(game, atMs)`: derive the active color's elapsed
time since `lastTickAt` without mutating stored fields; results clamped ≥ 0. -/
def effectiveClocksSnapshot {Pos : Type} (g : Game Pos) (atMs : Int) : ClockSnap :=
  let c := g.clocks
  let pair : Int × Int :=
    match c.running, c.activeColor, c.lastTickAt with
    | true, some ac, some l =>
        let elapsed := max 0 (atMs - l)
        (if ac = .w then c.wRemainingMs - elapsed else c.wRemainingMs,
         if ac = .b then c.bRemainingMs - elapsed else c.bRemainingMs)
    | _, _, _ => (c.wRemainingMs, c.bRemainingMs)
  { initialMs := c.initialMs
    incrementMs := c.incrementMs
    wRemainingMs := max 0 pair.1
    bRemainingMs := max 0 pair.2
    activeColor := c.activeColor
    running := c.running }

/-- One public player entry of `_publicPlayers`. -/
structure PubPlayer : Type where
  name : Option String
  color : Color
  present : Bool
deriving DecidableEq, Repr

/-- The public players block. -/
structure PubPlayers : Type where
  w : PubPlayer
  b : PubPlayer
deriving DecidableEq, Repr

/-- `_publicPlayers(game)`. -/
def publicPlayers {Pos : Type} (g : Game Pos) : PubPlayers :=
  ⟨⟨g.players.w.name, .w, g.players.w.present⟩, ⟨g.players.b.name, .b, g.players.b.present⟩⟩

/-- The status object embedded in a public state (includes `isCheck`). -/
structure PubStatus : Type where
  state : GState
  winner : Option Color
  reason : Option String
  isCheck : Bool
deriving DecidableEq, Repr

/-- The client-facing view built by `_publicState` (the `pgn`/`history`
display strings, both pure functions of `fen`, are omitted). -/
structure PublicState (Pos : Type) : Type where
  gameId : String
  fen : Pos
  turn : Color
  moveCursor : Nat
  status : PubStatus
  players : PubPlayers
  clocks : ClockSnap
  createdAt : String
  updatedAt : String
deriving DecidableEq

/-- `_publicState(game, atMs)`: recomputes termination from the held position
and lets it override the stored status. -/
def publicState {Pos : Type} (V : Validator Pos) (g : Game Pos) (atMs : Int) :
    PublicState Pos :=
  let status : PubStatus :=
    match computeTermination V g.chess with
    | some term => ⟨.finished, term.winner, some term.reason, V.isCheck g.chess⟩
    | none => ⟨g.status.state, g.status.winner, g.status.reason, V.isCheck g.chess⟩
  { gameId := g.id
    fen := g.chess
    turn := V.turn g.chess
    moveCursor := g.moveCursor
    status := status
    players := publicPlayers g
    clocks := effectiveClocksSnapshot g atMs
    createdAt := g.createdAt
    updatedAt := g.updatedAt }

/-- `_maybeStartGame(game)` (with `nowMs()` passed explicitly): re-evaluate
start/pause after a membership change. -/
def maybeStartGame {Pos : Type} (V : Validator Pos) (g : Game Pos) (now : Int) :
    Game Pos :=
  if g.status.state = .finished then g
  else
    let hasW := truthyStr g.players.w.id
    let hasB := truthyStr g.players.b.id
    if hasW && hasB then
      let g1 := { g with status := { g.status with state := .active } }
      if !g1.clocks.running then
        { g1 with
            clocks := { g1.clocks with
              running := true
              activeColor := some (V.turn g1.chess)
              lastTickAt := some now } }
      else g1
    else
      let g1 := { g with status := { g.status with state := .waiting } }
      if g1.clocks.running then
        let snap := effectiveClocksSnapshot g1 now
        { g1 with
            clocks := { g1.clocks with
              wRemainingMs := snap.wRemainingMs
              bRemainingMs := snap.bRemainingMs
              running := false
              activeColor := none
              lastTickAt := none } }
      else g1

/-- Printable form of a `GState` (used in the `Game is not active` message). -/
def GState.toStr : GState → String
  | .waiting => "waiting"
  | .active => "active"
  | .finished => "finished"

/-- The participant descriptor returned by create/join. -/
structure Participant : Type where
  playerId : String
  color : Option Color
  role : String
deriving DecidableEq, Repr

/-- The `game.players[c]` lookup. -/
def Players.get (ps : Players) : Color → Player
  | .w => ps.w
  | .b => ps.b

/-- Functional update of `game.players[c] = p`. -/
def Players.set (ps : Players) : Color → Player → Players
  | .w, p => { ps with w := p }
  | .b, p => { ps with b := p }

/-- `createGame` / `_createNewGame` with the ambient inputs (`randomId()`,
`Date.now()`, ISO timestamps, the `timeControl?.initialMs` lookups) passed
explicitly.  Includes the `_maybeStartGame` call done by `createGame`. -/
def createGame {Pos : Type} (V : Validator Pos) (creatorName : Option String)
    (creatorColor : Option String) (initialMsOpt incrementMsOpt : Option Int)
    (gameId creatorPlayerId : String) (nowIso : String) (now : Int) :
    Game Pos × Participant :=
  let color := (normalizeColor creatorColor).getD .w
  let initialMs := max 0 (initialMsOpt.getD 300000)
  let incrementMs := max 0 (incrementMsOpt.getD 2000)
  let creatorSlot : Player := ⟨some creatorPlayerId, jsStrOrNull creatorName, true⟩
  let emptySlot : Player := ⟨none, none, false⟩
  let game : Game Pos :=
    { id := gameId
      createdAt := nowIso
      updatedAt := nowIso
      initialFen := V.defaultPos
      moves := []
      moveCursor := 0
      chess := V.defaultPos
      players := if color = .w then ⟨creatorSlot, emptySlot⟩ else ⟨emptySlot, creatorSlot⟩
      spectators := []
      clocks :=
        { initialMs := initialMs
          incrementMs := incrementMs
          wRemainingMs := initialMs
          bRemainingMs := initialMs
          activeColor := none
          running := false
          lastTickAt := none }
      status := ⟨.waiting, none, none⟩ }
  (maybeStartGame V game now, ⟨creatorPlayerId, some color, "player"⟩)

/-- `joinGame` on a found session (the store-level `404` is handled by the
wrapper below).  `freshId` stands for the `randomId()` drawn in the assign /
spectator branches. -/
def joinGame {Pos : Type} (V : Validator Pos) (g : Game Pos) (name : Option String)
    (playerId : JStr) (requestedColor : Option String) (freshId : String)
    (now : Int) (ts : String) : Game Pos × Participant :=
  if playerId.truthy &&
      (jsStrictEq playerId g.players.w.id || jsStrictEq playerId g.players.b.id) then
    -- Reconnect flow (rejoin as existing participant).
    let color : Color := if jsStrictEq playerId g.players.w.id then .w else .b
    let updSlot : Player → Player := fun p =>
      { p with
          present := true
          name := match name with
                  | some s => if s = "" then p.name else some s
                  | none => p.name }
    let players := Players.set g.players color (updSlot (Players.get g.players color))
    let g1 := maybeStartGame V { g with players := players, updatedAt := ts } now
    (g1, ⟨playerId.toStr, some color, "player"⟩)
  else
    let desired := normalizeColor requestedColor
    let slotAvailable : Color → Bool := fun c =>
      !truthyStr (Players.get g.players c).id
    let assignTo : Color → Game Pos × Participant := fun c =>
      let players := Players.set g.players c ⟨some freshId, jsStrOrNull name, true⟩
      let g1 := maybeStartGame V { g with players := players, updatedAt := ts } now
      (g1, ⟨freshId, some c, "player"⟩)
    match desired with
    | some c =>
        if slotAvailable c then assignTo c
        else if slotAvailable .w then assignTo .w
        else if slotAvailable .b then assignTo .b
        else
          ({ g with spectators := g.spectators ++ [(freshId, jsStrOrNull name)]
                    updatedAt := ts },
           ⟨freshId, none, "spectator"⟩)
    | none =>
        if slotAvailable .w then assignTo .w
        else if slotAvailable .b then assignTo .b
        else
          ({ g with spectators := g.spectators ++ [(freshId, jsStrOrNull name)]
                    updatedAt := ts },
           ⟨freshId, none, "spectator"⟩)

/-- `leaveGame` on a found session; `none` as second component means success,
`some (message, statusCode)` an error (no mutation). -/
def leaveGame {Pos : Type} (V : Validator Pos) (g : Game Pos) (playerId : JStr)
    (now : Int) (ts : String) : Game Pos × Option (String × Nat) :=
  if jsStrictEq playerId g.players.w.id then
    let g1 := { g with players := { g.players with w := ⟨none, none, false⟩ }
                       updatedAt := ts }
    (maybeStartGame V g1 now, none)
  else if jsStrictEq playerId g.players.b.id then
    let g1 := { g with players := { g.players with b := ⟨none, none, false⟩ }
                       updatedAt := ts }
    (maybeStartGame V g1 now, none)
  else if (match playerId with
           | .str s => g.spectators.any (fun p => p.1 = s)
           | _ => false) then
    let g1 := { g with
        spectators := g.spectators.filter (fun p => p.1 ≠ playerId.toStr)
        updatedAt := ts }
    (maybeStartGame V g1 now, none)
  else
    (g, some ("Unknown playerId", 400))

/-- `_assertPlayerCanMove`: the precondition ladder of the move pipeline. -/
def assertPlayerCanMove {Pos : Type} (V : Validator Pos) (g : Game Pos)
    (playerId : JStr) : Except (String × Nat) Color :=
  if !playerId.truthy then .error ("playerId is required", 400)
  else if g.status.state ≠ .active then
    .error ("Game is not active (state=" ++ g.status.state.toStr ++ ")", 409)
  else if g.status.state = .finished then .error ("Game is finished", 409)
  else
    let color : Option Color :=
      if jsStrictEq playerId g.players.w.id then some .w
      else if jsStrictEq playerId g.players.b.id then some .b
      else none
    match color with
    | none => .error ("Only players may move", 403)
    | some c => if V.turn g.chess ≠ c then .error ("Not your turn", 409) else .ok c

/-- `_commitClockBeforeMove(game, atMs)`: write the derived snapshot back and
finalize a timeout when a remaining value hit 0 (white checked first). -/
def commitClockBeforeMove {Pos : Type} (g : Game Pos) (atMs : Int) :
    Game Pos × Bool :=
  let snap := effectiveClocksSnapshot g atMs
  let g1 := { g with clocks := { g.clocks with
      wRemainingMs := snap.wRemainingMs
      bRemainingMs := snap.bRemainingMs } }
  if snap.wRemainingMs ≤ 0 then
    ({ g1 with
        status := ⟨.finished, some .b, some "timeout"⟩
        clocks := { g1.clocks with running := false, activeColor := none, lastTickAt := none } },
     true)
  else if snap.bRemainingMs ≤ 0 then
    ({ g1 with
        status := ⟨.finished, some .w, some "timeout"⟩
        clocks := { g1.clocks with running := false, activeColor := none, lastTickAt := none } },
     true)
  else (g1, false)

/-- Outcome of `makeMove`/`undo`/`redo`: a structured error or a `{state}`
payload (the timeout short-circuit also returns a `{state}` payload). -/
inductive MoveReply (Pos : Type) : Type
  | err (message : String) (statusCode : Nat)
  | state (st : PublicState Pos)
deriving DecidableEq

/-- `makeMove` on a found session (`nowMs()` is `atMs`, the ISO timestamp for
`updatedAt` is `ts`). -/
def makeMove {Pos : Type} (V : Validator Pos) (g : Game Pos) (playerId : JStr)
    (fromSq toSq : String) (promotion : Option String) (atMs : Int) (ts : String) :
    Game Pos × MoveReply Pos :=
  match assertPlayerCanMove V g playerId with
  | .error (m, c) => (g, .err m c)
  | .ok color =>
    let commit := commitClockBeforeMove g atMs
    let g1 := commit.1
    if commit.2 then
      let g2 := { g1 with updatedAt := ts }
      (g2, .state (publicState V g2 atMs))
    else
      match V.move g1.chess ⟨fromSq, toSq, safePromotion promotion⟩ with
      | none => (g1, .err "Illegal move" 409)
      | some (applied, p') =>
        let g2 := { g1 with chess := p' }
        -- Discard the redo tail, then append the applied move record.
        let moves1 := if g2.moveCursor < g2.moves.length
                      then g2.moves.take g2.moveCursor else g2.moves
        let moves2 := moves1 ++ [⟨applied.fromSq, applied.toSq, jsStrOrNull applied.promotion⟩]
        let g3 := { g2 with moves := moves2, moveCursor := moves2.length }
        -- `game.clocks.incrementMs || 0` (identity on integers).
        let inc := g3.clocks.incrementMs
        let g4 := { g3 with clocks := { g3.clocks with
            wRemainingMs := g3.clocks.wRemainingMs + (if color = Color.w then inc else 0)
            bRemainingMs := g3.clocks.bRemainingMs + (if color = Color.b then inc else 0) } }
        let g5 :=
          match computeTermination V g4.chess with
          | some term =>
              { g4 with
                  status := ⟨.finished, term.winner, some term.reason⟩
                  clocks := { g4.clocks with
                    running := false, activeColor := none, lastTickAt := none } }
          | none =>
              { g4 with
                  status := { g4.status with state := .active }
                  clocks := { g4.clocks with
                    activeColor := some (V.turn g4.chess)
                    lastTickAt := some atMs
                    running := true } }
        let g6 := { g5 with updatedAt := ts }
        (g6, .state (publicState V g6 atMs))

/-- Replay a move list against the validator; an illegal move leaves the
position unchanged (legacy chess.js `move()` returns `null` without
mutating). -/
def replayMoves {Pos : Type} (V : Validator Pos) (p0 : Pos) (ms : List MoveRec) : Pos :=
  ms.foldl (fun p m => match V.move p m with
                       | some pr => pr.2
                       | none => p) p0

/-- `_rebuildChess(game)`: reconstruct the position by replaying
`moves[0, moveCursor)` from the initial position token. -/
def rebuildChess {Pos : Type} (V : Validator Pos) (g : Game Pos) : Game Pos :=
  { g with chess := replayMoves V g.initialFen (g.moves.take g.moveCursor) }

/-- `undo` on a found session. -/
def undo {Pos : Type} (V : Validator Pos) (g : Game Pos) (playerId : JStr)
    (atMs : Int) (ts : String) : Game Pos × MoveReply Pos :=
  if g.clocks.running then
    (g, .err "Undo is disabled while clocks are running" 409)
  else if !(jsStrictEq playerId g.players.w.id || jsStrictEq playerId g.players.b.id) then
    (g, .err "Only players may undo" 403)
  else if g.moveCursor ≤ 0 then (g, .err "Nothing to undo" 409)
  else
    let g1 := rebuildChess V { g with moveCursor := g.moveCursor - 1 }
    let g2 := { g1 with status := ⟨.waiting, none, none⟩, updatedAt := ts }
    (g2, .state (publicState V g2 atMs))

/-- `redo` on a found session. -/
def redo {Pos : Type} (V : Validator Pos) (g : Game Pos) (playerId : JStr)
    (atMs : Int) (ts : String) : Game Pos × MoveReply Pos :=
  if g.clocks.running then
    (g, .err "Redo is disabled while clocks are running" 409)
  else if !(jsStrictEq playerId g.players.w.id || jsStrictEq playerId g.players.b.id) then
    (g, .err "Only players may redo" 403)
  else if g.moveCursor ≥ g.moves.length then (g, .err "Nothing to redo" 409)
  else
    let g1 := rebuildChess V { g with moveCursor := g.moveCursor + 1 }
    let g2 := { g1 with status := ⟨.waiting, none, none⟩, updatedAt := ts }
    (g2, .state (publicState V g2 atMs))

/-- One session's share of `tickClocks(atMs)`: finalize a timeout of the
active color; otherwise mutate nothing. -/
def tickGame {Pos : Type} (g : Game Pos) (atMs : Int) (ts : String) : Game Pos :=
  if ¬g.clocks.running ∨ g.status.state ≠ .active then g
  else
    let snap := effectiveClocksSnapshot g atMs
    if (snap.wRemainingMs ≤ 0 ∧ g.clocks.activeColor = some .w) ∨
       (snap.bRemainingMs ≤ 0 ∧ g.clocks.activeColor = some .b) then
      { g with
          clocks := { g.clocks with
            wRemainingMs := snap.wRemainingMs
            bRemainingMs := snap.bRemainingMs
            running := false
            activeColor := none
            lastTickAt := none }
          status := ⟨.finished,
                     some (if g.clocks.activeColor = some Color.w then Color.b else Color.w),
                     some "timeout"⟩
          updatedAt := ts }
    else g

/-- The durable snapshot record produced by `_serializeGame` (the slot and
clock sub-records have the same shapes as the in-memory ones, so `Player` and
`Clocks` are reused; `moveCursor` is a raw JSON number, hence `Int`). -/
structure Serialized (Pos : Type) : Type where
  id : String
  createdAt : String
  updatedAt : String
  initialFen : Pos
  moves : List MoveRec
  moveCursor : Int
  players : Players
  spectators : List (String × Option String)
  clocks : Clocks
  status : Status
deriving DecidableEq

/-- `_serializeGame(game)`. -/
def serializeGame {Pos : Type} (g : Game Pos) : Serialized Pos :=
  { id := g.id
    createdAt := g.createdAt
    updatedAt := g.updatedAt
    initialFen := g.initialFen
    moves := g.moves
    moveCursor := (g.moveCursor : Int)
    players := g.players
    spectators := g.spectators
    clocks := { g.clocks with running := false, lastTickAt := none }
    status := g.status }

/-- `_deserializeGame(serialized)` (`new Date().toISOString()` fallbacks are
`nowIso`).  The stored status is read but then unconditionally overwritten by
recomputation from the rebuilt board, so the final status depends only on the
replayed position. -/
def deserializeGame {Pos : Type} (V : Validator Pos) (s : Serialized Pos)
    (nowIso : String) : Game Pos :=
  let moves := s.moves
  let moveCursor : Nat := (max 0 (min (moves.length : Int) s.moveCursor)).toNat
  let chess := replayMoves V s.initialFen (moves.take moveCursor)
  let spectators := s.spectators.filterMap fun p =>
    if p.1 = "" then none else some (p.1, jsStrOrNull p.2)
  let status : Status :=
    match computeTermination V chess with
    | some term => ⟨.finished, term.winner, some term.reason⟩
    | none => ⟨.waiting, none, none⟩
  { id := s.id
    createdAt := if s.createdAt = "" then nowIso else s.createdAt
    updatedAt := if s.updatedAt = "" then nowIso else s.updatedAt
    initialFen := s.initialFen
    moves := moves
    moveCursor := moveCursor
    chess := chess
    players :=
      { w := ⟨jsStrOrNull s.players.w.id, jsStrOrNull s.players.w.name, false⟩
        b := ⟨jsStrOrNull s.players.b.id, jsStrOrNull s.players.b.name, false⟩ }
    spectators := spectators
    clocks :=
      { initialMs := s.clocks.initialMs
        incrementMs := s.clocks.incrementMs
        wRemainingMs := s.clocks.wRemainingMs
        bRemainingMs := s.clocks.bRemainingMs
        activeColor := none
        running := false
        lastTickAt := none }
    status := status }

/-- Association-list lookup standing for `this.games.get(gameId)`. -/
def findGame {Pos : Type} (games : List (String × Game Pos)) (gid : String) :
    Option (Game Pos) :=
  (games.find? fun p => p.1 = gid).map (·.2)

/-- Write back a mutated session (in JS the mutation is in place). -/
def setGame {Pos : Type} (games : List (String × Game Pos)) (gid : String)
    (g : Game Pos) : List (String × Game Pos) :=
  games.map fun p => if p.1 = gid then (gid, g) else p

/-- Store-level `makeMove`: `Game not found` (404) when the id is unknown. -/
def storeMakeMove {Pos : Type} (V : Validator Pos)
    (games : List (String × Game Pos)) (gid : String) (playerId : JStr)
    (fromSq toSq : String) (promotion : Option String) (atMs : Int) (ts : String) :
    List (String × Game Pos) × MoveReply Pos :=
  match findGame games gid with
  | none => (games, .err "Game not found" 404)
  | some g =>
      let r := makeMove V g playerId fromSq toSq promotion atMs ts
      (setGame games gid r.1, r.2)

/-- `getGameState(gameId)`: the public projection of a found session. -/
def getGameState {Pos : Type} (V : Validator Pos)
    (games : List (String × Game Pos)) (gid : String) (atMs : Int) :
    Option (PublicState Pos) :=
  (findGame games gid).map fun g => publicState V g atMs

/-- Discriminator for the `{state}` outcome. -/
def MoveReply.isState {Pos : Type} : MoveReply Pos → Bool
  | .state _ => true
  | _ => false

/-! ### Concrete validator instances used for witnesses and counterexamples

The engine is agnostic to the validator's rules (spec §6); these instances
exercise the fixed surface with positions represented as the list of applied
moves.  `toyV` rejects exactly the moves whose from-square is `"x"` and has no
terminal positions; `toyVMate` accepts every move and declares positions with
at least two applied moves checkmated. -/

/-- A validator with no terminal positions; moves from square `"x"` are
illegal, everything else appends to the position. -/
def toyV : Validator (List MoveRec) :=
  { move := fun p m => if m.fromSq = "x" then none else some (m, p ++ [m])
    turn := fun p => if p.length % 2 = 0 then .w else .b
    isCheck := fun _ => false
    isCheckmate := fun _ => false
    isStalemate := fun _ => false
    isThreefoldRepetition := fun _ => false
    isInsufficientMaterial := fun _ => false
    isDraw := fun _ => false
    isGameOver := fun _ => false
    defaultPos := [] }

/-- A validator whose positions with ≥ 2 applied moves are checkmate. -/
def toyVMate : Validator (List MoveRec) :=
  { move := fun p m => some (m, p ++ [m])
    turn := fun p => if p.length % 2 = 0 then .w else .b
    isCheck := fun p => decide (2 ≤ p.length)
    isCheckmate := fun p => decide (2 ≤ p.length)
    isStalemate := fun _ => false
    isThreefoldRepetition := fun _ => false
    isInsufficientMaterial := fun _ => false
    isDraw := fun _ => false
    isGameOver := fun p => decide (2 ≤ p.length)
    defaultPos := [] }

/-- Fixture session over the toy position type; `chess` is the replayed
cursor-long move list, so the rebuild-idempotence invariant holds. -/
def mkGame (wId bId : Option String) (st : GState) (winner : Option Color)
    (reason : Option String) (wRem bRem : Int) (activeColor : Option Color)
    (running : Bool) (lastTickAt : Option Int) (moves : List MoveRec)
    (cursor : Nat) : Game (List MoveRec) :=
  { id := "game-1"
    createdAt := "2026-01-01T00:00:00.000Z"
    updatedAt := "2026-01-01T00:00:00.000Z"
    initialFen := []
    moves := moves
    moveCursor := cursor
    chess := moves.take cursor
    players := ⟨⟨wId, some "White", true⟩, ⟨bId, some "Black", true⟩⟩
    spectators := []
    clocks :=
      { initialMs := 300000
        incrementMs := 2000
        wRemainingMs := wRem
        bRemainingMs := bRem
        activeColor := activeColor
        running := running
        lastTickAt := lastTickAt }
    status := ⟨st, winner, reason⟩ }

/-- A sample legal move record. -/
def mv1 : MoveRec := ⟨"e2", "e4", none⟩

/-- A second sample legal move record. -/
def mv2 : MoveRec := ⟨"e7", "e5", none⟩

/-- Fixture: white seated, black slot vacant, clocks stopped, one undoable
move. -/
def gVacantB : Game (List MoveRec) :=
  mkGame (some "p1") none .waiting none none 1000 1000 none false none [mv1] 1

/-- Fixture: both seated, active and running for white since `t = 0` with one
second remaining on each side. -/
def gRun : Game (List MoveRec) :=
  mkGame (some "p1") (some "p2") .active none none 1000 1000 (some .w) true (some 0) [] 0

/-- Fixture: both seated, active and running for white since `t = 0` with ten
seconds remaining on each side. -/
def gC2 : Game (List MoveRec) :=
  mkGame (some "p1") (some "p2") .active none none 10000 10000 (some .w) true (some 0) [] 0

/-- Fixture: a session finished by timeout whose position is not terminal,
clock already stopped. -/
def gDoneTimeout : Game (List MoveRec) :=
  mkGame (some "p1") (some "p2") .finished (some .b) (some "timeout") 0 1000 none false none [] 0

/-- Fixture: a persisted snapshot with both player slots occupied and a
non-terminal position. -/
def serBoth : Serialized (List MoveRec) :=
  ⟨"g1", "c", "u", [], [], 0,
   ⟨⟨some "p1", some "A", true⟩, ⟨some "p2", some "B", true⟩⟩, [],
   ⟨1000, 0, 1000, 1000, some .w, true, some 5⟩, ⟨.active, none, none⟩⟩

/-- Fixture: the session obtained by loading `serBoth` from disk. -/
def gAfterLoad : Game (List MoveRec) := deserializeGame toyV serBoth "now"

/-- Fixture: a session holding a position that `toyVMate` declares checkmated
while the stored status still says `waiting`. -/
def gMate : Game (List MoveRec) :=
  mkGame (some "p1") (some "p2") .waiting none none 1000 1000 none false none [mv1, mv2] 2

/-- Fixture: a paused session with one applied move (used for the round-trip
and history witnesses). -/
def gPaused : Game (List MoveRec) :=
  mkGame (some "p1") (some "p2") .waiting none none 290000 300000 none false none [mv1, mv2] 1

/-! ### Helper lemmas shared by the claim proofs -/

/-- `x || null` is the identity away from the empty string. -/
theorem jsStrOrNull_eq {o : Option String} (h : o ≠ some "") : jsStrOrNull o = o := by
  cases o with
  | none => rfl
  | some s =>
      simp only [jsStrOrNull]
      rw [if_neg]
      intro hs
      exact h (by rw [hs])

/-- The deserializer's cursor clamp is the identity on an in-range cursor. -/
theorem clampCursor_eq (n k : Nat) (h : k ≤ n) :
    (max 0 (min (n : Int) (k : Int))).toNat = k := by
  omega

/-- The effective snapshot depends only on the clock block. -/
theorem effectiveClocksSnapshot_congr {Pos Pos' : Type} (g : Game Pos)
    (g' : Game Pos') (h : g.clocks = g'.clocks) (t : Int) :
    effectiveClocksSnapshot g t = effectiveClocksSnapshot g' t := by
  unfold effectiveClocksSnapshot
  rw [h]

/-- A stopped clock projects its stored values (clamped at zero). -/
theorem effectiveClocksSnapshot_not_running {Pos : Type} (g : Game Pos)
    (h : g.clocks.running = false) (t : Int) :
    effectiveClocksSnapshot g t =
      ⟨g.clocks.initialMs, g.clocks.incrementMs,
       max 0 g.clocks.wRemainingMs, max 0 g.clocks.bRemainingMs,
       g.clocks.activeColor, g.clocks.running⟩ := by
  simp only [effectiveClocksSnapshot, h]

/-- A running clock deducts `max 0 (t - lastTickAt)` from the active color. -/
theorem effectiveClocksSnapshot_running {Pos : Type} (g : Game Pos) (ac : Color)
    (l : Int) (hr : g.clocks.running = true) (hac : g.clocks.activeColor = some ac)
    (hl : g.clocks.lastTickAt = some l) (t : Int) :
    (effectiveClocksSnapshot g t).wRemainingMs =
      max 0 (g.clocks.wRemainingMs - (if ac = .w then max 0 (t - l) else 0)) ∧
    (effectiveClocksSnapshot g t).bRemainingMs =
      max 0 (g.clocks.bRemainingMs - (if ac = .b then max 0 (t - l) else 0)) := by
  simp only [effectiveClocksSnapshot, hr, hac, hl]
  cases ac <;> simp

/-- `_maybeStartGame` never touches the history, the board, the identity
fields or the membership. -/
theorem maybeStartGame_frame {Pos : Type} (V : Validator Pos) (g : Game Pos)
    (now : Int) :
    (maybeStartGame V g now).moves = g.moves ∧
    (maybeStartGame V g now).moveCursor = g.moveCursor ∧
    (maybeStartGame V g now).chess = g.chess ∧
    (maybeStartGame V g now).players = g.players ∧
    (maybeStartGame V g now).id = g.id ∧
    (maybeStartGame V g now).updatedAt = g.updatedAt := by
  refine ⟨?_, ?_, ?_, ?_, ?_, ?_⟩ <;>
    simp only [maybeStartGame] <;>
      (repeat' split) <;> rfl

/-- On a non-finished session, `_maybeStartGame` sets `active` exactly when
both color slots hold a (truthy) id, `waiting` otherwise. -/
theorem maybeStartGame_active_iff {Pos : Type} (V : Validator Pos) (g : Game Pos)
    (now : Int) (h : g.status.state ≠ .finished) :
    ((maybeStartGame V g now).status.state = .active ↔
      (truthyStr g.players.w.id = true ∧ truthyStr g.players.b.id = true)) := by
  simp only [maybeStartGame, if_neg h]
  by_cases hw : truthyStr g.players.w.id = true <;>
    by_cases hb : truthyStr g.players.b.id = true <;>
      simp [hw, hb] <;> (repeat' split) <;> simp_all

/-- On a non-finished session with a stopped clock and both slots occupied,
`_maybeStartGame` starts the clock anchored at `now` for the current turn. -/
theorem maybeStartGame_start {Pos : Type} (V : Validator Pos) (g : Game Pos)
    (now : Int) (h : g.status.state ≠ .finished)
    (hrun : g.clocks.running = false)
    (hw : truthyStr g.players.w.id = true) (hb : truthyStr g.players.b.id = true) :
    (maybeStartGame V g now).clocks =
      { g.clocks with
          running := true
          activeColor := some (V.turn g.chess)
          lastTickAt := some now } ∧
    (maybeStartGame V g now).status.state = .active := by
  simp only [maybeStartGame, if_neg h]
  simp [hw, hb, hrun]

/-- On a non-finished session with a running clock and a vacant slot,
`_maybeStartGame` commits the snapshot values and pauses; the state becomes
`waiting`, never `finished`. -/
theorem maybeStartGame_pause {Pos : Type} (V : Validator Pos) (g : Game Pos)
    (now : Int) (h : g.status.state ≠ .finished)
    (hrun : g.clocks.running = true)
    (hnb : ¬(truthyStr g.players.w.id = true ∧ truthyStr g.players.b.id = true)) :
    (maybeStartGame V g now).clocks =
      { g.clocks with
          wRemainingMs := (effectiveClocksSnapshot g now).wRemainingMs
          bRemainingMs := (effectiveClocksSnapshot g now).bRemainingMs
          running := false
          activeColor := none
          lastTickAt := none } ∧
    (maybeStartGame V g now).status.state = .waiting := by
  have hsnap : ∀ s : Status, effectiveClocksSnapshot { g with status := s } now =
      effectiveClocksSnapshot g now := fun s =>
    effectiveClocksSnapshot_congr _ _ rfl now
  simp only [maybeStartGame, if_neg h]
  by_cases hw : truthyStr g.players.w.id = true <;>
    by_cases hb : truthyStr g.players.b.id = true <;>
      simp_all [hsnap]

/-- C9 (amended): the serialized snapshot contains the identity, timestamps,
initial position token, full move list, cursor, player slots (id, name, and —
contrary to the claim — the transient `present` flag), spectator list, status,
and the clock totals with `running` forced to `false` and `lastTickAt` cleared
to `null` (stored remaining values and `activeColor` preserved). -/
theorem claim_C9 {Pos : Type} (g : Game Pos) :
    (serializeGame g).id = g.id ∧
    (serializeGame g).createdAt = g.createdAt ∧
    (serializeGame g).updatedAt = g.updatedAt ∧
    (serializeGame g).initialFen = g.initialFen ∧
    (serializeGame g).moves = g.moves ∧
    (serializeGame g).moveCursor = (g.moveCursor : Int) ∧
    (serializeGame g).players = g.players ∧
    (serializeGame g).players.w.present = g.players.w.present ∧
    (serializeGame g).players.b.present = g.players.b.present ∧
    (serializeGame g).spectators = g.spectators ∧
    (serializeGame g).status = g.status ∧
    (serializeGame g).clocks =
      { g.clocks with running := false, lastTickAt := none } := by
  refine ⟨rfl, rfl, rfl, rfl, rfl, rfl, rfl, rfl, rfl, rfl, rfl, rfl⟩

/-- C9, counterexample: the serialized player slots do contain the transient
`present` flag — two sessions differing only in `players.w.present` serialize
differently, and the flag's value is carried into the snapshot. -/
theorem claim_C9_counterexample :
    (serializeGame gVacantB).players.w.present = true ∧
    serializeGame gVacantB ≠
      serializeGame
        { gVacantB with
            players := { gVacantB.players with
              w := { gVacantB.players.w with present := false } } } := by
  constructor
  · rfl
  · decide
/-- C10: the public state projector recomputes termination from the held
position and lets it override the stored status; when the position is not
terminal the stored status is reported unchanged.  `getGameState` is the
projection of the found session. -/
theorem claim_C10 {Pos : Type} (V : Validator Pos) (g : Game Pos) (atMs : Int) :
    (∀ term, computeTermination V g.chess = some term →
        (publicState V g atMs).status =
          ⟨.finished, term.winner, some term.reason, V.isCheck g.chess⟩) ∧
    (computeTermination V g.chess = none →
        (publicState V g atMs).status =
          ⟨g.status.state, g.status.winner, g.status.reason, V.isCheck g.chess⟩) ∧
    (∀ (games : List (String × Game Pos)) (gid : String),
        findGame games gid = some g →
        getGameState V games gid atMs = some (publicState V g atMs)) := by
  refine ⟨?_, ?_, ?_⟩
  · intro term h
    simp only [publicState, h]
  · intro h
    simp only [publicState, h]
  · intro games gid h
    simp only [getGameState, h, Option.map_some']

/-- C10, witness: a checkmated toy position whose stored status still says
`waiting` (as after a redo) is reported `finished/checkmate` with the winner
derived from the position. -/
theorem claim_C10_witness :
    computeTermination toyVMate gMate.chess = some ⟨some Color.b, "checkmate"⟩ ∧
    gMate.status.state = GState.waiting ∧
    (publicState toyVMate gMate 0).status =
      ⟨.finished, some Color.b, some "checkmate", true⟩ := by
  refine ⟨by decide, by decide, ?_⟩
  exact (claim_C10 toyVMate gMate 0).1 ⟨some Color.b, "checkmate"⟩ (by decide)
/-- C6 (code bug): on a session with a vacant black slot, stopped clocks and
an undoable move, an `undo` request whose `playerId` is JSON `null` is treated
as a player (JS `null === null` matches the vacant slot's `null` id): the
players-only check is bypassed and the undo is performed, while the same
request with `playerId` missing is correctly rejected with 403.  The remaining
conditions of the claim behave as stated (running-clock Conflict, cursor
Conflict, and the success postconditions). -/
theorem claim_C6 :
    -- the caller occupies no color slot ...
    gVacantB.players.b.id = none ∧
    jsStrictEq .nullv gVacantB.players.w.id = false ∧
    -- ... a missing playerId is rejected 403, as the claim says ...
    (undo toyV gVacantB .undefv 0 "ts").2 = .err "Only players may undo" 403 ∧
    -- ... but a null playerId performs the undo instead of being rejected
    (undo toyV gVacantB .nullv 0 "ts").2.isState = true ∧
    (undo toyV gVacantB .nullv 0 "ts").1.moveCursor = 0 ∧
    (undo toyV gVacantB .nullv 0 "ts").1.chess = [] ∧
    (undo toyV gVacantB .nullv 0 "ts").1.status = ⟨.waiting, none, none⟩ ∧
    -- the running-clock Conflict and cursor Conflict guards behave as claimed
    (undo toyV { gVacantB with clocks := { gVacantB.clocks with running := true } }
        (.str "p1") 0 "ts").2 = .err "Undo is disabled while clocks are running" 409 ∧
    (undo toyV { gVacantB with moveCursor := 0, chess := [] } (.str "p1") 0 "ts").2 =
      .err "Nothing to undo" 409 ∧
    (redo toyV { gVacantB with clocks := { gVacantB.clocks with running := true } }
        (.str "p1") 0 "ts").2 = .err "Redo is disabled while clocks are running" 409 ∧
    (redo toyV gVacantB (.str "p1") 0 "ts").2 = .err "Nothing to redo" 409 := by
  decide
/-- C1 (amended): (a) at the pre-move commit, a non-positive effective
remaining for either color (white checked first) finalizes the session
`finished/timeout` with the other color as winner and the clock stopped, and
the move attempt returns the finalized state without applying the move;
(b) the sweep finalizes `finished/timeout` with the opponent as winner when
the active color's effective remaining is ≤ 0; (c) the commit taken when a
seated slot becomes vacant pauses but never finalizes: the session becomes
`waiting` even if the active color's effective remaining is ≤ 0. -/
theorem claim_C1 {Pos : Type} (V : Validator Pos) (g : Game Pos) (pid : JStr)
    (fromSq toSq : String) (promo : Option String) (atMs : Int) (ts : String)
    (c : Color) :
    (assertPlayerCanMove V g pid = .ok c →
      ((effectiveClocksSnapshot g atMs).wRemainingMs ≤ 0 ∨
       (effectiveClocksSnapshot g atMs).bRemainingMs ≤ 0) →
      ((makeMove V g pid fromSq toSq promo atMs ts).1.status =
          ⟨.finished,
           some (if (effectiveClocksSnapshot g atMs).wRemainingMs ≤ 0
                 then Color.b else Color.w),
           some "timeout"⟩ ∧
       (makeMove V g pid fromSq toSq promo atMs ts).1.clocks.running = false ∧
       (makeMove V g pid fromSq toSq promo atMs ts).1.clocks.activeColor = none ∧
       (makeMove V g pid fromSq toSq promo atMs ts).1.clocks.lastTickAt = none ∧
       (makeMove V g pid fromSq toSq promo atMs ts).1.chess = g.chess ∧
       (makeMove V g pid fromSq toSq promo atMs ts).1.moves = g.moves ∧
       (makeMove V g pid fromSq toSq promo atMs ts).1.moveCursor = g.moveCursor ∧
       (makeMove V g pid fromSq toSq promo atMs ts).2 =
         .state (publicState V (makeMove V g pid fromSq toSq promo atMs ts).1 atMs))) ∧
    (g.clocks.running = true → g.status.state = .active →
      g.clocks.activeColor = some c →
      (if c = Color.w then (effectiveClocksSnapshot g atMs).wRemainingMs
       else (effectiveClocksSnapshot g atMs).bRemainingMs) ≤ 0 →
      ((tickGame g atMs ts).status = ⟨.finished, some c.other, some "timeout"⟩ ∧
       (tickGame g atMs ts).clocks.running = false ∧
       (tickGame g atMs ts).clocks.activeColor = none ∧
       (tickGame g atMs ts).clocks.lastTickAt = none ∧
       (tickGame g atMs ts).clocks.wRemainingMs =
         (effectiveClocksSnapshot g atMs).wRemainingMs ∧
       (tickGame g atMs ts).clocks.bRemainingMs =
         (effectiveClocksSnapshot g atMs).bRemainingMs)) ∧
    (g.status.state ≠ .finished →
      ¬(truthyStr g.players.w.id = true ∧ truthyStr g.players.b.id = true) →
      (maybeStartGame V g atMs).status.state = .waiting) := by
  refine ⟨?_, ?_, ?_⟩
  · intro hok htime
    simp only [makeMove, hok]
    simp only [commitClockBeforeMove]
    by_cases hw : (effectiveClocksSnapshot g atMs).wRemainingMs ≤ 0
    · simp [hw]
    · have hb : (effectiveClocksSnapshot g atMs).bRemainingMs ≤ 0 := by
        rcases htime with h | h
        · exact absurd h hw
        · exact h
      simp [hw, hb]
  · intro hrun hact hac hle
    have hcond : (effectiveClocksSnapshot g atMs).wRemainingMs ≤ 0 ∧
        g.clocks.activeColor = some Color.w ∨
        (effectiveClocksSnapshot g atMs).bRemainingMs ≤ 0 ∧
        g.clocks.activeColor = some Color.b := by
      cases c with
      | w => exact Or.inl ⟨by simpa using hle, hac⟩
      | b => exact Or.inr ⟨by simpa using hle, hac⟩
    simp only [tickGame]
    rw [if_neg (by simp [hrun, hact])]
    rw [if_pos hcond]
    cases c with
    | w => simp [hac, Color.other]
    | b => simp [hac, Color.other]
  · intro hnf hnb
    by_cases hrun : g.clocks.running = true
    · exact (maybeStartGame_pause V g atMs hnf hrun hnb).2
    · have h := maybeStartGame_active_iff V g atMs hnf
      simp only [maybeStartGame, if_neg hnf] at h ⊢
      by_cases hw : truthyStr g.players.w.id = true <;>
        by_cases hb : truthyStr g.players.b.id = true <;>
          simp_all
/-- C1, counterexample: vacating a seated slot while the active color's
effective remaining is ≤ 0 does not finalize `finished/timeout` — the commit
in the pause path leaves the session `waiting`. -/
theorem claim_C1_counterexample :
    gRun.status.state ≠ GState.finished ∧
    gRun.clocks.running = true ∧
    gRun.clocks.activeColor = some Color.w ∧
    (effectiveClocksSnapshot gRun 2000).wRemainingMs ≤ 0 ∧
    (leaveGame toyV gRun (.str "p2") 2000 "ts").2 = none ∧
    (leaveGame toyV gRun (.str "p2") 2000 "ts").1.clocks.wRemainingMs = 0 ∧
    (leaveGame toyV gRun (.str "p2") 2000 "ts").1.status.state = GState.waiting := by
  decide

/-- C1, witness: a legal move attempted after white's time ran out finalizes
`finished/timeout` for black without applying the move, and the sweep
finalizes the same session. -/
theorem claim_C1_witness :
    (makeMove toyV gRun (.str "p1") "e2" "e4" none 2000 "ts").1.status =
      ⟨.finished,
       some (if (effectiveClocksSnapshot gRun 2000).wRemainingMs ≤ 0
             then Color.b else Color.w),
       some "timeout"⟩ ∧
    (makeMove toyV gRun (.str "p1") "e2" "e4" none 2000 "ts").1.moves = gRun.moves ∧
    (makeMove toyV gRun (.str "p1") "e2" "e4" none 2000 "ts").1.chess = gRun.chess ∧
    (tickGame gRun 2000 "ts").status = ⟨.finished, some Color.w.other, some "timeout"⟩ := by
  have h := claim_C1 toyV gRun (.str "p1") "e2" "e4" none 2000 "ts" Color.w
  have ha := h.1 (by rfl) (Or.inl (by decide))
  have hb := h.2.1 (by decide) (by decide) (by decide) (by decide)
  exact ⟨ha.1, ha.2.2.2.2.2.1, ha.2.2.2.2.1, hb.1⟩

/-- C2 (amended): under passing preconditions and no timeout at the commit,
(a) an accepted move credits exactly `incrementMs` to the mover once, leaves
the opponent at its committed value, and re-anchors the running clock at the
commit instant so later observations deduct exactly the wall-clock time since
the move; (b) a rejected (illegal) move mutates only the stored remaining
fields (the committed elapsed time) — `running`, `activeColor` and
`lastTickAt` are left unchanged — but because `lastTickAt` is not advanced,
the effective snapshot observed after the rejection deducts the interval from
`lastTickAt` to the commit a second time instead of reflecting real wall-clock
elapsed time exactly. -/
theorem claim_C2 {Pos : Type} (V : Validator Pos) (g : Game Pos) (pid : JStr)
    (fromSq toSq : String) (promo : Option String) (atMs : Int) (ts : String)
    (c : Color) (hok : assertPlayerCanMove V g pid = .ok c)
    (hw : 0 < (effectiveClocksSnapshot g atMs).wRemainingMs)
    (hb : 0 < (effectiveClocksSnapshot g atMs).bRemainingMs) :
    (∀ applied p',
      V.move g.chess ⟨fromSq, toSq, safePromotion promo⟩ = some (applied, p') →
      computeTermination V p' = none →
      ((if c = Color.w
        then (makeMove V g pid fromSq toSq promo atMs ts).1.clocks.wRemainingMs
        else (makeMove V g pid fromSq toSq promo atMs ts).1.clocks.bRemainingMs) =
         (if c = Color.w then (effectiveClocksSnapshot g atMs).wRemainingMs
          else (effectiveClocksSnapshot g atMs).bRemainingMs) + g.clocks.incrementMs ∧
       (if c = Color.w
        then (makeMove V g pid fromSq toSq promo atMs ts).1.clocks.bRemainingMs
        else (makeMove V g pid fromSq toSq promo atMs ts).1.clocks.wRemainingMs) =
         (if c = Color.w then (effectiveClocksSnapshot g atMs).bRemainingMs
          else (effectiveClocksSnapshot g atMs).wRemainingMs) ∧
       (makeMove V g pid fromSq toSq promo atMs ts).1.clocks.running = true ∧
       (makeMove V g pid fromSq toSq promo atMs ts).1.clocks.activeColor =
         some (V.turn p') ∧
       (makeMove V g pid fromSq toSq promo atMs ts).1.clocks.lastTickAt = some atMs ∧
       (∀ t, (effectiveClocksSnapshot (makeMove V g pid fromSq toSq promo atMs ts).1 t).wRemainingMs =
               max 0 ((makeMove V g pid fromSq toSq promo atMs ts).1.clocks.wRemainingMs -
                 (if V.turn p' = Color.w then max 0 (t - atMs) else 0)) ∧
             (effectiveClocksSnapshot (makeMove V g pid fromSq toSq promo atMs ts).1 t).bRemainingMs =
               max 0 ((makeMove V g pid fromSq toSq promo atMs ts).1.clocks.bRemainingMs -
                 (if V.turn p' = Color.b then max 0 (t - atMs) else 0))))) ∧
    (V.move g.chess ⟨fromSq, toSq, safePromotion promo⟩ = none →
      ((makeMove V g pid fromSq toSq promo atMs ts).2 = .err "Illegal move" 409 ∧
       (makeMove V g pid fromSq toSq promo atMs ts).1.clocks.wRemainingMs =
         (effectiveClocksSnapshot g atMs).wRemainingMs ∧
       (makeMove V g pid fromSq toSq promo atMs ts).1.clocks.bRemainingMs =
         (effectiveClocksSnapshot g atMs).bRemainingMs ∧
       (makeMove V g pid fromSq toSq promo atMs ts).1.clocks.running = g.clocks.running ∧
       (makeMove V g pid fromSq toSq promo atMs ts).1.clocks.activeColor =
         g.clocks.activeColor ∧
       (makeMove V g pid fromSq toSq promo atMs ts).1.clocks.lastTickAt =
         g.clocks.lastTickAt ∧
       (makeMove V g pid fromSq toSq promo atMs ts).1.chess = g.chess ∧
       (makeMove V g pid fromSq toSq promo atMs ts).1.moves = g.moves ∧
       (makeMove V g pid fromSq toSq promo atMs ts).1.moveCursor = g.moveCursor ∧
       (∀ ac l, g.clocks.running = true → g.clocks.activeColor = some ac →
          g.clocks.lastTickAt = some l →
          ∀ t, (if ac = Color.w
                then (effectiveClocksSnapshot (makeMove V g pid fromSq toSq promo atMs ts).1 t).wRemainingMs
                else (effectiveClocksSnapshot (makeMove V g pid fromSq toSq promo atMs ts).1 t).bRemainingMs) =
            max 0 ((if ac = Color.w then (effectiveClocksSnapshot g atMs).wRemainingMs
                    else (effectiveClocksSnapshot g atMs).bRemainingMs) - max 0 (t - l))))) := by
  have hwne : ¬(effectiveClocksSnapshot g atMs).wRemainingMs ≤ 0 := by omega
  have hbne : ¬(effectiveClocksSnapshot g atMs).bRemainingMs ≤ 0 := by omega
  constructor
  · intro applied p' hmv hterm
    simp only [makeMove, hok, commitClockBeforeMove, if_neg hwne, if_neg hbne,
      Bool.false_eq_true, if_false]
    simp only [hmv, hterm]
    refine ⟨?_, ?_, ?_, ?_, ?_, ?_⟩
    · cases c <;> simp
    · cases c <;> simp
    · trivial
    · trivial
    · trivial
    · intro t
      exact ⟨(effectiveClocksSnapshot_running _ (V.turn p') atMs rfl rfl rfl t).1,
             (effectiveClocksSnapshot_running _ (V.turn p') atMs rfl rfl rfl t).2⟩
  · intro hmv
    simp only [makeMove, hok, commitClockBeforeMove, if_neg hwne, if_neg hbne,
      Bool.false_eq_true, if_false]
    simp only [hmv]
    refine ⟨?_, ?_, ?_, ?_, ?_, ?_, ?_, ?_, ?_, ?_⟩ <;> try trivial
    intro ac l hr hac hl t
    have hsnap := effectiveClocksSnapshot_running
      (g := { g with clocks := { g.clocks with
          wRemainingMs := (effectiveClocksSnapshot g atMs).wRemainingMs
          bRemainingMs := (effectiveClocksSnapshot g atMs).bRemainingMs } })
      ac l hr hac hl t
    cases ac with
    | w => simpa using hsnap.1
    | b => simpa using hsnap.2
/-- C2, counterexample: after a rejected (illegal) move on a running clock,
the effective snapshot does not reflect real wall-clock elapsed time exactly:
the 1000 ms between `lastTickAt = 0` and the commit at `atMs = 1000` is
deducted again at the observation at `t = 1000`, leaving 8000 ms where exact
accounting gives 9000 ms. -/
theorem claim_C2_counterexample :
    (makeMove toyV gC2 (.str "p1") "x" "e4" none 1000 "ts").2 =
      .err "Illegal move" 409 ∧
    (effectiveClocksSnapshot
        (makeMove toyV gC2 (.str "p1") "x" "e4" none 1000 "ts").1 1000).wRemainingMs
      = 8000 ∧
    gC2.clocks.wRemainingMs - (1000 - 0) = 9000 ∧
    (8000 : Int) ≠ 9000 := by
  decide

/-- C2, witness: an accepted move at `atMs = 1000` credits white exactly the
2000 ms increment on top of the committed 9000 ms, leaves black untouched, and
re-anchors the clock at the commit instant. -/
theorem claim_C2_witness :
    assertPlayerCanMove toyV gC2 (.str "p1") = .ok Color.w ∧
    (makeMove toyV gC2 (.str "p1") "e2" "e4" none 1000 "ts").1.clocks.wRemainingMs =
      (effectiveClocksSnapshot gC2 1000).wRemainingMs + gC2.clocks.incrementMs ∧
    (makeMove toyV gC2 (.str "p1") "e2" "e4" none 1000 "ts").1.clocks.bRemainingMs =
      (effectiveClocksSnapshot gC2 1000).bRemainingMs ∧
    (makeMove toyV gC2 (.str "p1") "e2" "e4" none 1000 "ts").1.clocks.lastTickAt =
      some 1000 := by
  have h := (claim_C2 toyV gC2 (.str "p1") "e2" "e4" none 1000 "ts" Color.w
      (by rfl) (by decide) (by decide)).1
    ⟨"e2", "e4", none⟩ [⟨"e2", "e4", none⟩] (by decide) (by decide)
  refine ⟨by rfl, ?_, ?_, h.2.2.2.2.1⟩
  · simpa using h.1
  · simpa using h.2.1

/-- C4: when undo succeeds on a session satisfying the stated invariants
(cursor in range and rebuild idempotence), an immediate redo succeeds and
returns the session to exactly the pre-undo position, applied move prefix and
cursor. -/
theorem claim_C4 {Pos : Type} (V : Validator Pos) (g : Game Pos) (pid : JStr)
    (at1 at2 : Int) (ts1 ts2 : String)
    (hrun : g.clocks.running = false)
    (hp : (jsStrictEq pid g.players.w.id || jsStrictEq pid g.players.b.id) = true)
    (hcur : 0 < g.moveCursor) (hlen : g.moveCursor ≤ g.moves.length)
    (hchess : g.chess = replayMoves V g.initialFen (g.moves.take g.moveCursor)) :
    (undo V g pid at1 ts1).2.isState = true ∧
    (undo V g pid at1 ts1).1.moveCursor = g.moveCursor - 1 ∧
    (redo V (undo V g pid at1 ts1).1 pid at2 ts2).2.isState = true ∧
    (redo V (undo V g pid at1 ts1).1 pid at2 ts2).1.chess = g.chess ∧
    (redo V (undo V g pid at1 ts1).1 pid at2 ts2).1.moveCursor = g.moveCursor ∧
    (redo V (undo V g pid at1 ts1).1 pid at2 ts2).1.moves = g.moves := by
  have hc0 : ¬g.moveCursor ≤ 0 := by omega
  have hrun' : g.clocks.running ≠ true := by simp [hrun]
  simp only [undo, if_neg hrun', hp, if_neg hc0]
  simp only [rebuildChess, Bool.not_true, Bool.true_or, Bool.or_true,
    Bool.false_eq_true, if_false, MoveReply.isState]
  have hlt : ¬(g.moveCursor - 1 ≥ g.moves.length) := by omega
  simp only [redo, if_neg hrun', hp, if_neg hlt]
  simp only [rebuildChess, Bool.not_true, Bool.false_eq_true, if_false,
    MoveReply.isState]
  have hcc : g.moveCursor - 1 + 1 = g.moveCursor := by omega
  refine ⟨?_, ?_, ?_, ?_, ?_, ?_⟩ <;> try trivial
  all_goals simp [hcc, hchess]
/-- C4, witness: undo then redo on a paused two-move session with cursor 1
restores the position `[mv1]` and cursor 1. -/
theorem claim_C4_witness :
    gPaused.clocks.running = false ∧
    0 < gPaused.moveCursor ∧
    (undo toyV gPaused (.str "p1") 0 "t1").1.moveCursor = 0 ∧
    (redo toyV (undo toyV gPaused (.str "p1") 0 "t1").1 (.str "p1") 0 "t2").1.chess =
      gPaused.chess ∧
    (redo toyV (undo toyV gPaused (.str "p1") 0 "t1").1 (.str "p1") 0 "t2").1.moveCursor =
      gPaused.moveCursor ∧
    (redo toyV (undo toyV gPaused (.str "p1") 0 "t1").1 (.str "p1") 0 "t2").1.moves =
      gPaused.moves := by
  have h := claim_C4 toyV gPaused (.str "p1") 0 0 "t1" "t2"
    (by decide) (by decide) (by decide) (by decide) (by decide)
  exact ⟨by decide, by decide, h.2.1, h.2.2.2.1, h.2.2.2.2.1, h.2.2.2.2.2⟩
/-- C5: the move preconditions are checked in order — session exists (404),
`playerId` provided (400), state active (409), caller occupies a color slot
(403), caller's color equals the current turn (409) — each failing with a
distinct structured error and no session mutation; only when all five hold
does the pipeline proceed to the clock commit and validator delegation
(whose outcomes are a `{state}` payload or the `Illegal move` rejection). -/
theorem claim_C5 {Pos : Type} (V : Validator Pos)
    (games : List (String × Game Pos)) (gid : String) (g : Game Pos) (pid : JStr)
    (fromSq toSq : String) (promo : Option String) (atMs : Int) (ts : String) :
    (findGame games gid = none →
      storeMakeMove V games gid pid fromSq toSq promo atMs ts =
        (games, .err "Game not found" 404)) ∧
    (pid.truthy = false →
      makeMove V g pid fromSq toSq promo atMs ts =
        (g, .err "playerId is required" 400)) ∧
    (pid.truthy = true → g.status.state ≠ .active →
      makeMove V g pid fromSq toSq promo atMs ts =
        (g, .err ("Game is not active (state=" ++ g.status.state.toStr ++ ")") 409)) ∧
    (pid.truthy = true → g.status.state = .active →
      jsStrictEq pid g.players.w.id = false → jsStrictEq pid g.players.b.id = false →
      makeMove V g pid fromSq toSq promo atMs ts =
        (g, .err "Only players may move" 403)) ∧
    (∀ c, pid.truthy = true → g.status.state = .active →
      (if jsStrictEq pid g.players.w.id then some Color.w
       else if jsStrictEq pid g.players.b.id then some Color.b else none) = some c →
      V.turn g.chess ≠ c →
      makeMove V g pid fromSq toSq promo atMs ts = (g, .err "Not your turn" 409)) ∧
    (∀ c, pid.truthy = true → g.status.state = .active →
      (if jsStrictEq pid g.players.w.id then some Color.w
       else if jsStrictEq pid g.players.b.id then some Color.b else none) = some c →
      V.turn g.chess = c →
      (assertPlayerCanMove V g pid = .ok c ∧
       ((makeMove V g pid fromSq toSq promo atMs ts).2 = .err "Illegal move" 409 ∨
        ∃ st, (makeMove V g pid fromSq toSq promo atMs ts).2 = .state st))) := by
  refine ⟨?_, ?_, ?_, ?_, ?_, ?_⟩
  · intro h
    simp only [storeMakeMove, h]
  · intro h
    simp only [makeMove, assertPlayerCanMove, h, Bool.not_false, if_pos trivial]
  · intro ht hs
    simp only [makeMove, assertPlayerCanMove, ht, Bool.not_true, Bool.false_eq_true,
      if_false, if_pos hs]
  · intro ht hs hw hb
    simp only [makeMove, assertPlayerCanMove, ht, Bool.not_true, Bool.false_eq_true,
      if_false, hs, hw, hb]
    simp
  · intro c ht hs hcol hturn
    simp only [makeMove, assertPlayerCanMove, ht, Bool.not_true, Bool.false_eq_true,
      if_false, hs]
    by_cases hw : jsStrictEq pid g.players.w.id = true
    · simp only [hw, if_true] at hcol ⊢
      cases hcol
      simp_all
    · simp only [Bool.not_eq_true] at hw
      simp only [hw, Bool.false_eq_true, if_false] at hcol ⊢
      by_cases hbb : jsStrictEq pid g.players.b.id = true
      · simp only [hbb, if_true] at hcol ⊢
        cases hcol
        simp_all
      · simp only [Bool.not_eq_true] at hbb
        simp only [hbb, Bool.false_eq_true, if_false] at hcol
        cases hcol
  · intro c ht hs hcol hturn
    have hok : assertPlayerCanMove V g pid = .ok c := by
      simp only [assertPlayerCanMove, ht, Bool.not_true, Bool.false_eq_true,
        if_false, hs]
      by_cases hw : jsStrictEq pid g.players.w.id = true
      · simp only [hw, if_true] at hcol ⊢
        cases hcol
        simp_all
      · simp only [Bool.not_eq_true] at hw
        simp only [hw, Bool.false_eq_true, if_false] at hcol ⊢
        by_cases hbb : jsStrictEq pid g.players.b.id = true
        · simp only [hbb, if_true] at hcol ⊢
          cases hcol
          simp_all
        · simp only [Bool.not_eq_true] at hbb
          simp only [hbb, Bool.false_eq_true, if_false] at hcol
          cases hcol
    refine ⟨hok, ?_⟩
    simp only [makeMove, hok]
    by_cases htw : (commitClockBeforeMove g atMs).2
    · simp only [htw, if_true]
      exact Or.inr ⟨_, rfl⟩
    · simp only [Bool.not_eq_true] at htw
      simp only [htw, Bool.false_eq_true, if_false]
      cases hmv : V.move (commitClockBeforeMove g atMs).1.chess
          ⟨fromSq, toSq, safePromotion promo⟩ with
      | none => exact Or.inl rfl
      | some pr => exact Or.inr ⟨_, rfl⟩
/-- C5, witness: the 404, missing-`playerId` and wrong-turn precondition
failures at concrete inputs, each leaving the session untouched. -/
theorem claim_C5_witness :
    storeMakeMove toyV ([] : List (String × Game (List MoveRec))) "nope" (.str "p1")
        "e2" "e4" none 0 "ts" = ([], .err "Game not found" 404) ∧
    makeMove toyV gC2 .undefv "e2" "e4" none 0 "ts" =
      (gC2, .err "playerId is required" 400) ∧
    makeMove toyV gC2 (.str "p2") "e7" "e5" none 0 "ts" =
      (gC2, .err "Not your turn" 409) := by
  have h := claim_C5 toyV ([] : List (String × Game (List MoveRec))) "nope" gC2
    (.str "p1") "e2" "e4" none 0 "ts"
  have h2 := claim_C5 toyV ([] : List (String × Game (List MoveRec))) "nope" gC2
    .undefv "e2" "e4" none 0 "ts"
  have h3 := claim_C5 toyV ([] : List (String × Game (List MoveRec))) "nope" gC2
    (.str "p2") "e7" "e5" none 0 "ts"
  exact ⟨h.1 (by decide), h2.2.1 (by decide),
         h3.2.2.2.2.1 Color.b (by decide) (by decide) (by decide) (by decide)⟩

/-- After `_maybeStartGame` on a non-finished session, `active` holds exactly
when both (unchanged) slots are occupied. -/
theorem maybeStartGame_reeval {Pos : Type} (V : Validator Pos) (g : Game Pos)
    (now : Int) (h : g.status.state ≠ .finished) :
    ((maybeStartGame V g now).status.state = .active ↔
      (truthyStr (maybeStartGame V g now).players.w.id = true ∧
       truthyStr (maybeStartGame V g now).players.b.id = true)) := by
  have hp := (maybeStartGame_frame V g now).2.2.2.1
  rw [hp]
  exact maybeStartGame_active_iff V g now h

/-- C7 (amended): on a non-finished session, (i) every successful leave
re-evaluates start/pause, so afterwards the state is `active` iff both color
slots are occupied; (ii) a join either seats/reconnects a player and likewise
re-evaluates, or adds a spectator and leaves the stored status untouched (no
re-evaluation); (iii) when the re-evaluation starts a stopped clock it anchors
`lastTickAt` to now with the position's turn as active color; (iv) when a
running clock is paused the exact effective snapshot is committed to the
stored remaining fields before the clock is stopped, and the committed values
are what every later observation reports (no time lost or double-counted). -/
theorem claim_C7 {Pos : Type} (V : Validator Pos) (g : Game Pos) (pid : JStr)
    (name : Option String) (rc : Option String) (fid : String) (now : Int)
    (ts : String) (h : g.status.state ≠ .finished) :
    ((leaveGame V g pid now ts).2 = none →
      ((leaveGame V g pid now ts).1.status.state = .active ↔
        (truthyStr (leaveGame V g pid now ts).1.players.w.id = true ∧
         truthyStr (leaveGame V g pid now ts).1.players.b.id = true))) ∧
    (((joinGame V g name pid rc fid now ts).2.role = "spectator" ∧
      (joinGame V g name pid rc fid now ts).1.status = g.status) ∨
     ((joinGame V g name pid rc fid now ts).2.role = "player" ∧
      ((joinGame V g name pid rc fid now ts).1.status.state = .active ↔
        (truthyStr (joinGame V g name pid rc fid now ts).1.players.w.id = true ∧
         truthyStr (joinGame V g name pid rc fid now ts).1.players.b.id = true)))) ∧
    (g.clocks.running = false →
      truthyStr g.players.w.id = true → truthyStr g.players.b.id = true →
      (maybeStartGame V g now).clocks =
        { g.clocks with
            running := true
            activeColor := some (V.turn g.chess)
            lastTickAt := some now } ∧
      (maybeStartGame V g now).status.state = .active) ∧
    (g.clocks.running = true →
      ¬(truthyStr g.players.w.id = true ∧ truthyStr g.players.b.id = true) →
      ((maybeStartGame V g now).clocks.wRemainingMs =
         (effectiveClocksSnapshot g now).wRemainingMs ∧
       (maybeStartGame V g now).clocks.bRemainingMs =
         (effectiveClocksSnapshot g now).bRemainingMs ∧
       (maybeStartGame V g now).clocks.running = false ∧
       (maybeStartGame V g now).clocks.activeColor = none ∧
       (maybeStartGame V g now).clocks.lastTickAt = none ∧
       (maybeStartGame V g now).status.state = .waiting ∧
       (∀ t, (effectiveClocksSnapshot (maybeStartGame V g now) t).wRemainingMs =
               (effectiveClocksSnapshot g now).wRemainingMs ∧
             (effectiveClocksSnapshot (maybeStartGame V g now) t).bRemainingMs =
               (effectiveClocksSnapshot g now).bRemainingMs))) := by
  refine ⟨?_, ?_, ?_, ?_⟩
  · intro hok
    simp only [leaveGame] at hok ⊢
    split at hok
    · next h4 =>
        rw [if_pos h4]
        exact maybeStartGame_reeval V _ now h
    · next h4 =>
        rw [if_neg h4]
        split at hok
        · next h5 =>
            rw [if_pos h5]
            exact maybeStartGame_reeval V _ now h
        · next h5 =>
            rw [if_neg h5]
            split at hok
            · next h6 =>
                rw [if_pos h6]
                exact maybeStartGame_reeval V _ now h
            · next h6 =>
                simp at hok
  · by_cases h1 : (pid.truthy &&
        (jsStrictEq pid g.players.w.id || jsStrictEq pid g.players.b.id)) = true
    · simp only [joinGame, if_pos h1]
      exact Or.inr ⟨by trivial, maybeStartGame_reeval V _ now h⟩
    · simp only [joinGame, if_neg h1]
      cases hdes : normalizeColor rc with
      | some c =>
          dsimp only
          by_cases h2 : (!truthyStr (Players.get g.players c).id) = true
          · rw [if_pos h2]
            exact Or.inr ⟨rfl, maybeStartGame_reeval V _ now h⟩
          · rw [if_neg h2]
            by_cases h3 : (!truthyStr (Players.get g.players Color.w).id) = true
            · rw [if_pos h3]
              exact Or.inr ⟨rfl, maybeStartGame_reeval V _ now h⟩
            · rw [if_neg h3]
              by_cases h4 : (!truthyStr (Players.get g.players Color.b).id) = true
              · rw [if_pos h4]
                exact Or.inr ⟨rfl, maybeStartGame_reeval V _ now h⟩
              · rw [if_neg h4]
                exact Or.inl ⟨rfl, rfl⟩
      | none =>
          dsimp only
          by_cases h3 : (!truthyStr (Players.get g.players Color.w).id) = true
          · rw [if_pos h3]
            exact Or.inr ⟨rfl, maybeStartGame_reeval V _ now h⟩
          · rw [if_neg h3]
            by_cases h4 : (!truthyStr (Players.get g.players Color.b).id) = true
            · rw [if_pos h4]
              exact Or.inr ⟨rfl, maybeStartGame_reeval V _ now h⟩
            · rw [if_neg h4]
              exact Or.inl ⟨rfl, rfl⟩
  · intro hrun hw hb
    exact maybeStartGame_start V g now h hrun hw hb
  · intro hrun hnb
    have hp := maybeStartGame_pause V g now h hrun hnb
    have hw0 : 0 ≤ (effectiveClocksSnapshot g now).wRemainingMs := by
      simp only [effectiveClocksSnapshot]
      exact le_max_left 0 _
    have hb0 : 0 ≤ (effectiveClocksSnapshot g now).bRemainingMs := by
      simp only [effectiveClocksSnapshot]
      exact le_max_left 0 _
    refine ⟨by rw [hp.1], by rw [hp.1], by rw [hp.1], by rw [hp.1], by rw [hp.1],
            hp.2, ?_⟩
    intro t
    have hfrozen := effectiveClocksSnapshot_not_running (maybeStartGame V g now)
      (by rw [hp.1]) t
    rw [hfrozen, hp.1]
    constructor
    · exact max_eq_right hw0
    · exact max_eq_right hb0

/-- Fixture: white seated, black vacant, clock (inconsistently but harmlessly)
still running for white since `t = 0` — the state handed to `_maybeStartGame`
by a leave that just vacated black. -/
def gRunVacant : Game (List MoveRec) :=
  mkGame (some "p1") none .active none none 1000 1000 (some .w) true (some 0) [] 0

/-- C7, counterexample: a freshly loaded session has both slots occupied but
state `waiting`; a subsequent spectator join does not re-evaluate, so after
that join the state is still not `active` although both color slots are
occupied. -/
theorem claim_C7_counterexample :
    gAfterLoad.status.state ≠ GState.finished ∧
    truthyStr (joinGame toyV gAfterLoad (some "S") .undefv none "sp1" 7 "ts").1.players.w.id = true ∧
    truthyStr (joinGame toyV gAfterLoad (some "S") .undefv none "sp1" 7 "ts").1.players.b.id = true ∧
    (joinGame toyV gAfterLoad (some "S") .undefv none "sp1" 7 "ts").2.role = "spectator" ∧
    (joinGame toyV gAfterLoad (some "S") .undefv none "sp1" 7 "ts").1.status.state ≠
      GState.active := by
  decide

/-- C7, witness: the pause commit on a vacated session stores the exact
snapshot (600 ms elapsed of 1000 ms), and a successful leave re-evaluates
start/pause as the amended claim states. -/
theorem claim_C7_witness :
    ((maybeStartGame toyV gRunVacant 600).clocks.wRemainingMs =
       (effectiveClocksSnapshot gRunVacant 600).wRemainingMs ∧
     (effectiveClocksSnapshot gRunVacant 600).wRemainingMs = 400 ∧
     (maybeStartGame toyV gRunVacant 600).status.state = GState.waiting) ∧
    ((leaveGame toyV gRun (.str "p2") 600 "ts").2 = none →
      ((leaveGame toyV gRun (.str "p2") 600 "ts").1.status.state = GState.active ↔
        (truthyStr (leaveGame toyV gRun (.str "p2") 600 "ts").1.players.w.id = true ∧
         truthyStr (leaveGame toyV gRun (.str "p2") 600 "ts").1.players.b.id = true))) := by
  have hv := claim_C7 toyV gRunVacant (.str "p2") none none "x" 600 "ts" (by decide)
  have hr := claim_C7 toyV gRun (.str "p2") none none "x" 600 "ts" (by decide)
  have hp := hv.2.2.2 (by decide) (by decide)
  exact ⟨⟨hp.1, by decide, hp.2.2.2.2.2.1⟩, hr.1⟩

/-- The cursor bound invariant `0 ≤ moveCursor ≤ len(moves)` (the lower bound
is inherent in `Nat`). -/
def curInv {Pos : Type} (g : Game Pos) : Prop := g.moveCursor ≤ g.moves.length

/-- `joinGame` never touches the move list or the cursor. -/
theorem joinGame_history {Pos : Type} (V : Validator Pos) (g : Game Pos)
    (name : Option String) (pid : JStr) (rc : Option String) (fid : String)
    (now : Int) (ts : String) :
    (joinGame V g name pid rc fid now ts).1.moves = g.moves ∧
    (joinGame V g name pid rc fid now ts).1.moveCursor = g.moveCursor := by
  by_cases h1 : (pid.truthy &&
      (jsStrictEq pid g.players.w.id || jsStrictEq pid g.players.b.id)) = true
  · simp only [joinGame, if_pos h1]
    exact ⟨(maybeStartGame_frame V _ now).1, (maybeStartGame_frame V _ now).2.1⟩
  · simp only [joinGame, if_neg h1]
    cases hdes : normalizeColor rc with
    | some c =>
        dsimp only
        by_cases h2 : (!truthyStr (Players.get g.players c).id) = true
        · rw [if_pos h2]
          exact ⟨(maybeStartGame_frame V _ now).1, (maybeStartGame_frame V _ now).2.1⟩
        · rw [if_neg h2]
          by_cases h3 : (!truthyStr (Players.get g.players Color.w).id) = true
          · rw [if_pos h3]
            exact ⟨(maybeStartGame_frame V _ now).1, (maybeStartGame_frame V _ now).2.1⟩
          · rw [if_neg h3]
            by_cases h4 : (!truthyStr (Players.get g.players Color.b).id) = true
            · rw [if_pos h4]
              exact ⟨(maybeStartGame_frame V _ now).1, (maybeStartGame_frame V _ now).2.1⟩
            · rw [if_neg h4]
              exact ⟨rfl, rfl⟩
    | none =>
        dsimp only
        by_cases h3 : (!truthyStr (Players.get g.players Color.w).id) = true
        · rw [if_pos h3]
          exact ⟨(maybeStartGame_frame V _ now).1, (maybeStartGame_frame V _ now).2.1⟩
        · rw [if_neg h3]
          by_cases h4 : (!truthyStr (Players.get g.players Color.b).id) = true
          · rw [if_pos h4]
            exact ⟨(maybeStartGame_frame V _ now).1, (maybeStartGame_frame V _ now).2.1⟩
          · rw [if_neg h4]
            exact ⟨rfl, rfl⟩

/-- `leaveGame` never touches the move list or the cursor. -/
theorem leaveGame_history {Pos : Type} (V : Validator Pos) (g : Game Pos)
    (pid : JStr) (now : Int) (ts : String) :
    (leaveGame V g pid now ts).1.moves = g.moves ∧
    (leaveGame V g pid now ts).1.moveCursor = g.moveCursor := by
  simp only [leaveGame]
  split
  · exact ⟨(maybeStartGame_frame V _ now).1, (maybeStartGame_frame V _ now).2.1⟩
  · split
    · exact ⟨(maybeStartGame_frame V _ now).1, (maybeStartGame_frame V _ now).2.1⟩
    · split
      · exact ⟨(maybeStartGame_frame V _ now).1, (maybeStartGame_frame V _ now).2.1⟩
      · exact ⟨rfl, rfl⟩

/-- The sweep never touches the move list or the cursor. -/
theorem tickGame_history {Pos : Type} (g : Game Pos) (atMs : Int) (ts : String) :
    (tickGame g atMs ts).moves = g.moves ∧
    (tickGame g atMs ts).moveCursor = g.moveCursor := by
  simp only [tickGame]
  repeat' split
  all_goals exact ⟨rfl, rfl⟩
/-- `_commitClockBeforeMove` only touches clocks and status. -/
theorem commitClockBeforeMove_frame {Pos : Type} (g : Game Pos) (atMs : Int) :
    (commitClockBeforeMove g atMs).1.moves = g.moves ∧
    (commitClockBeforeMove g atMs).1.moveCursor = g.moveCursor ∧
    (commitClockBeforeMove g atMs).1.chess = g.chess := by
  simp only [commitClockBeforeMove]
  repeat' split
  all_goals exact ⟨rfl, rfl, rfl⟩

/-- `makeMove` preserves the cursor invariant, and either leaves the history
untouched (any error or the timeout short-circuit) or — accepted move — drops
the redo tail and appends the applied record, leaving the cursor at the end. -/
theorem makeMove_history {Pos : Type} (V : Validator Pos) (g : Game Pos)
    (pid : JStr) (fromSq toSq : String) (promo : Option String) (atMs : Int)
    (ts : String) (hi : curInv g) :
    curInv (makeMove V g pid fromSq toSq promo atMs ts).1 ∧
    (((makeMove V g pid fromSq toSq promo atMs ts).1.moves = g.moves ∧
      (makeMove V g pid fromSq toSq promo atMs ts).1.moveCursor = g.moveCursor) ∨
     (∃ rec, (makeMove V g pid fromSq toSq promo atMs ts).1.moves =
               g.moves.take g.moveCursor ++ [rec] ∧
             (makeMove V g pid fromSq toSq promo atMs ts).1.moveCursor =
               (makeMove V g pid fromSq toSq promo atMs ts).1.moves.length)) := by
  have hcf := commitClockBeforeMove_frame g atMs
  cases hok : assertPlayerCanMove V g pid with
  | error e =>
      obtain ⟨m, c⟩ := e
      simp only [makeMove, hok]
      exact ⟨hi, Or.inl ⟨by trivial, by trivial⟩⟩
  | ok c =>
      simp only [makeMove, hok]
      by_cases ht : (commitClockBeforeMove g atMs).2 = true
      · simp only [ht, if_true]
        refine ⟨?_, Or.inl ⟨?_, ?_⟩⟩
        · simpa only [curInv, hcf.1, hcf.2.1] using hi
        · simpa using hcf.1
        · simpa using hcf.2.1
      · simp only [Bool.not_eq_true] at ht
        simp only [ht, Bool.false_eq_true, if_false]
        cases hmv : V.move (commitClockBeforeMove g atMs).1.chess
            ⟨fromSq, toSq, safePromotion promo⟩ with
        | none =>
            refine ⟨?_, Or.inl ⟨?_, ?_⟩⟩
            · simpa only [curInv, hcf.1, hcf.2.1] using hi
            · exact hcf.1
            · exact hcf.2.1
        | some pr =>
            obtain ⟨applied, p'⟩ := pr
            have hmoves1 : (if g.moveCursor < g.moves.length
                then g.moves.take g.moveCursor else g.moves) =
                g.moves.take g.moveCursor := by
              by_cases hlt : g.moveCursor < g.moves.length
              · rw [if_pos hlt]
              · rw [if_neg hlt]
                have hEq : g.moveCursor = g.moves.length := by
                  simp only [curInv] at hi
                  omega
                rw [hEq, List.take_length]
            cases hterm : computeTermination V p' with
            | some term =>
                simp only [hterm, hcf.1, hcf.2.1, hmoves1]
                refine ⟨?_, Or.inr ⟨⟨applied.fromSq, applied.toSq,
                    jsStrOrNull applied.promotion⟩, ?_, ?_⟩⟩
                · simp only [curInv]
                  exact le_refl _
                · rfl
                · trivial
            | none =>
                simp only [hterm, hcf.1, hcf.2.1, hmoves1]
                refine ⟨?_, Or.inr ⟨⟨applied.fromSq, applied.toSq,
                    jsStrOrNull applied.promotion⟩, ?_, ?_⟩⟩
                · simp only [curInv]
                  exact le_refl _
                · rfl
                · trivial
/-- `undo` and `redo` never touch the move list and keep the cursor in
bounds. -/
theorem undoRedo_history {Pos : Type} (V : Validator Pos) (g : Game Pos)
    (pid : JStr) (atMs : Int) (ts : String) (hi : curInv g) :
    (undo V g pid atMs ts).1.moves = g.moves ∧
    curInv (undo V g pid atMs ts).1 ∧
    (redo V g pid atMs ts).1.moves = g.moves ∧
    curInv (redo V g pid atMs ts).1 := by
  simp only [curInv] at hi
  refine ⟨?_, ?_, ?_, ?_⟩ <;> simp only [undo, redo, rebuildChess]
  · repeat' split
    all_goals rfl
  · repeat' split
    all_goals simp only [curInv]
    all_goals omega
  · repeat' split
    all_goals rfl
  · repeat' split
    all_goals simp only [curInv]
    all_goals omega

/-- Deserialization clamps the cursor into `[0, len(moves)]` and copies the
move list verbatim. -/
theorem deserializeGame_history {Pos : Type} (V : Validator Pos)
    (s : Serialized Pos) (nowIso : String) :
    (deserializeGame V s nowIso).moves = s.moves ∧
    curInv (deserializeGame V s nowIso) := by
  refine ⟨rfl, ?_⟩
  simp only [curInv, deserializeGame]
  omega
/-- C8: every operation preserves `0 ≤ moveCursor ≤ len(moves)` and leaves
the redo tail untouched, except an accepted move, which drops `moves[cursor:]`
before appending the new record and leaves `moveCursor = len(moves)`:
create starts at `([], 0)`; join, leave, tick, undo and redo never change the
move list; serialization copies list and cursor; deserialization copies the
list and clamps the cursor into range. -/
theorem claim_C8 {Pos : Type} (V : Validator Pos) (g : Game Pos)
    (creatorName creatorColor : Option String) (initialMsOpt incrementMsOpt : Option Int)
    (gid cpid : String) (name : Option String) (pid : JStr) (rc : Option String)
    (fid : String) (fromSq toSq : String) (promo : Option String)
    (now atMs : Int) (iso ts : String) (s : Serialized Pos) (hi : curInv g) :
    ((createGame V creatorName creatorColor initialMsOpt incrementMsOpt
        gid cpid iso now).1.moves = [] ∧
     (createGame V creatorName creatorColor initialMsOpt incrementMsOpt
        gid cpid iso now).1.moveCursor = 0) ∧
    ((joinGame V g name pid rc fid now ts).1.moves = g.moves ∧
     (joinGame V g name pid rc fid now ts).1.moveCursor = g.moveCursor) ∧
    ((leaveGame V g pid now ts).1.moves = g.moves ∧
     (leaveGame V g pid now ts).1.moveCursor = g.moveCursor) ∧
    ((tickGame g atMs ts).moves = g.moves ∧
     (tickGame g atMs ts).moveCursor = g.moveCursor) ∧
    (curInv (makeMove V g pid fromSq toSq promo atMs ts).1 ∧
     (((makeMove V g pid fromSq toSq promo atMs ts).1.moves = g.moves ∧
       (makeMove V g pid fromSq toSq promo atMs ts).1.moveCursor = g.moveCursor) ∨
      (∃ rec, (makeMove V g pid fromSq toSq promo atMs ts).1.moves =
                g.moves.take g.moveCursor ++ [rec] ∧
              (makeMove V g pid fromSq toSq promo atMs ts).1.moveCursor =
                (makeMove V g pid fromSq toSq promo atMs ts).1.moves.length))) ∧
    ((undo V g pid atMs ts).1.moves = g.moves ∧
     curInv (undo V g pid atMs ts).1 ∧
     (redo V g pid atMs ts).1.moves = g.moves ∧
     curInv (redo V g pid atMs ts).1) ∧
    ((serializeGame g).moves = g.moves ∧
     (serializeGame g).moveCursor = (g.moveCursor : Int)) ∧
    ((deserializeGame V s iso).moves = s.moves ∧
     curInv (deserializeGame V s iso)) := by
  refine ⟨⟨?_, ?_⟩, joinGame_history V g name pid rc fid now ts,
          leaveGame_history V g pid now ts, tickGame_history g atMs ts,
          makeMove_history V g pid fromSq toSq promo atMs ts hi,
          undoRedo_history V g pid atMs ts hi, ⟨rfl, rfl⟩,
          deserializeGame_history V s iso⟩
  · simp only [createGame]
    exact (maybeStartGame_frame V _ now).1
  · simp only [createGame]
    exact (maybeStartGame_frame V _ now).2.1

/-- C8, witness: an accepted move on a session with an undone tail
(`moves = [mv1, mv2]`, cursor 1) drops the tail and appends the new record,
leaving the cursor at the end; join and undo keep the history unchanged. -/
theorem claim_C8_witness :
    gPaused.moveCursor ≤ gPaused.moves.length ∧
    (joinGame toyV gPaused (some "S") .undefv none "sp" 0 "ts").1.moves =
      gPaused.moves ∧
    (undo toyV gPaused (.str "p1") 0 "ts").1.moves = gPaused.moves ∧
    ((makeMove toyV { gPaused with
          status := ⟨.active, none, none⟩,
          clocks := { gPaused.clocks with
            running := true, activeColor := some .b, lastTickAt := some 0 } }
        (.str "p2") "g8" "f6" none 100 "ts").1.moves = gPaused.moves.take 1 ++
          [⟨"g8", "f6", none⟩] ∨
     ((makeMove toyV { gPaused with
          status := ⟨.active, none, none⟩,
          clocks := { gPaused.clocks with
            running := true, activeColor := some .b, lastTickAt := some 0 } }
        (.str "p2") "g8" "f6" none 100 "ts").1.moves = gPaused.moves ∧
      (makeMove toyV { gPaused with
          status := ⟨.active, none, none⟩,
          clocks := { gPaused.clocks with
            running := true, activeColor := some .b, lastTickAt := some 0 } }
        (.str "p2") "g8" "f6" none 100 "ts").1.moveCursor = 1)) := by
  have h := claim_C8 toyV gPaused none none none none "gid" "cpid" (some "S")
    (.str "p1") none "sp" "e2" "e4" none 0 0 "iso" "ts"
    (serializeGame gPaused) (by simp only [curInv]; decide)
  refine ⟨by decide, h.2.1.1, h.2.2.2.2.2.1.1, ?_⟩
  left
  decide

/-- C3 (amended): for a session with a stopped clock (the only honest
comparison, since deserialization forces `running=false`/`activeColor=null`)
satisfying the stated invariants, save-then-load preserves the public state —
identity, position token, turn, cursor, timestamps, clock snapshot — modulo
`present=false` on the player slots, except the status: when the rebuilt
position is terminal the reported status is preserved (recomputed to the same
value), but when it is not terminal the stored status is reset to
`waiting/null/null`, so a session finished by timeout does NOT round-trip its
`finished` status. -/
theorem claim_C3 {Pos : Type} (V : Validator Pos) (g : Game Pos) (t : Int)
    (nowIso : String)
    (hcur : g.moveCursor ≤ g.moves.length)
    (hchess : g.chess = replayMoves V g.initialFen (g.moves.take g.moveCursor))
    (hrun : g.clocks.running = false)
    (hac : g.clocks.activeColor = none)
    (hca : g.createdAt ≠ "") (hua : g.updatedAt ≠ "")
    (hwid : g.players.w.id ≠ some "") (hbid : g.players.b.id ≠ some "")
    (hwn : g.players.w.name ≠ some "") (hbn : g.players.b.name ≠ some "") :
    (publicState V (deserializeGame V (serializeGame g) nowIso) t).gameId =
      (publicState V g t).gameId ∧
    (publicState V (deserializeGame V (serializeGame g) nowIso) t).fen =
      (publicState V g t).fen ∧
    (publicState V (deserializeGame V (serializeGame g) nowIso) t).turn =
      (publicState V g t).turn ∧
    (publicState V (deserializeGame V (serializeGame g) nowIso) t).moveCursor =
      (publicState V g t).moveCursor ∧
    (publicState V (deserializeGame V (serializeGame g) nowIso) t).createdAt =
      (publicState V g t).createdAt ∧
    (publicState V (deserializeGame V (serializeGame g) nowIso) t).updatedAt =
      (publicState V g t).updatedAt ∧
    (publicState V (deserializeGame V (serializeGame g) nowIso) t).clocks =
      (publicState V g t).clocks ∧
    (publicState V (deserializeGame V (serializeGame g) nowIso) t).players =
      ⟨⟨g.players.w.name, .w, false⟩, ⟨g.players.b.name, .b, false⟩⟩ ∧
    (∀ term, computeTermination V g.chess = some term →
      (publicState V (deserializeGame V (serializeGame g) nowIso) t).status =
        (publicState V g t).status) ∧
    (computeTermination V g.chess = none →
      (publicState V (deserializeGame V (serializeGame g) nowIso) t).status =
        ⟨.waiting, none, none, V.isCheck g.chess⟩) := by
  have hclamp : (max 0 (min ((g.moves).length : Int) ((g.moveCursor : Nat) : Int))).toNat
      = g.moveCursor := by omega
  have hchess' : (deserializeGame V (serializeGame g) nowIso).chess = g.chess := by
    simp only [deserializeGame, serializeGame]
    rw [hclamp]
    exact hchess.symm
  have hcur' : (deserializeGame V (serializeGame g) nowIso).moveCursor = g.moveCursor := by
    simp only [deserializeGame, serializeGame]
    rw [hclamp]
  have hca' : (deserializeGame V (serializeGame g) nowIso).createdAt = g.createdAt := by
    simp only [deserializeGame, serializeGame]
    rw [if_neg hca]
  have hua' : (deserializeGame V (serializeGame g) nowIso).updatedAt = g.updatedAt := by
    simp only [deserializeGame, serializeGame]
    rw [if_neg hua]
  have hstat : (deserializeGame V (serializeGame g) nowIso).status =
      (match computeTermination V g.chess with
       | some term => ⟨.finished, term.winner, some term.reason⟩
       | none => (⟨.waiting, none, none⟩ : Status)) := by
    simp only [deserializeGame, serializeGame]
    rw [hclamp, ← hchess]
  have hclk : (deserializeGame V (serializeGame g) nowIso).clocks =
      { g.clocks with running := false, activeColor := none, lastTickAt := none } := by
    simp only [deserializeGame, serializeGame]
  have hpl : (deserializeGame V (serializeGame g) nowIso).players =
      ⟨⟨g.players.w.id, g.players.w.name, false⟩, ⟨g.players.b.id, g.players.b.name, false⟩⟩ := by
    simp only [deserializeGame, serializeGame]
    rw [jsStrOrNull_eq hwid, jsStrOrNull_eq hbid, jsStrOrNull_eq hwn, jsStrOrNull_eq hbn]
  refine ⟨rfl, ?_, ?_, ?_, ?_, ?_, ?_, ?_, ?_, ?_⟩
  · simp only [publicState]
    rw [hchess']
  · simp only [publicState]
    rw [hchess']
  · simp only [publicState]
    rw [hcur']
  · simp only [publicState]
    rw [hca']
  · simp only [publicState]
    rw [hua']
  · simp only [publicState]
    rw [effectiveClocksSnapshot_not_running _ (by rw [hclk]) t,
        effectiveClocksSnapshot_not_running g hrun t, hclk, hac]
    simp [hrun]
  · simp only [publicState, publicPlayers]
    rw [hpl]
  · intro term hterm
    simp only [publicState, hchess', hterm]
  · intro hterm
    simp only [publicState, hchess', hterm, hstat]
/-- C3, counterexample: a session finished by timeout whose rebuilt position
is not terminal does not round-trip — after save/load its public status is
`waiting`, not the original `finished`. -/
theorem claim_C3_counterexample :
    (publicState toyV gDoneTimeout 0).status.state = GState.finished ∧
    (publicState toyV gDoneTimeout 0).status.winner = some Color.b ∧
    (publicState toyV
        (deserializeGame toyV (serializeGame gDoneTimeout) "now") 0).status.state =
      GState.waiting ∧
    (publicState toyV
        (deserializeGame toyV (serializeGame gDoneTimeout) "now") 0).status.state ≠
      GState.finished := by
  decide

/-- C3, witness: the paused one-move session round-trips its public state
(fen, cursor, clocks), with `present` forced to false and the non-terminal
status reset to `waiting`. -/
theorem claim_C3_witness :
    (publicState toyV (deserializeGame toyV (serializeGame gPaused) "now") 5).fen =
      (publicState toyV gPaused 5).fen ∧
    (publicState toyV (deserializeGame toyV (serializeGame gPaused) "now") 5).clocks =
      (publicState toyV gPaused 5).clocks ∧
    (publicState toyV (deserializeGame toyV (serializeGame gPaused) "now") 5).players =
      ⟨⟨gPaused.players.w.name, .w, false⟩, ⟨gPaused.players.b.name, .b, false⟩⟩ ∧
    (publicState toyV (deserializeGame toyV (serializeGame gPaused) "now") 5).status =
      ⟨.waiting, none, none, toyV.isCheck gPaused.chess⟩ := by
  have h := claim_C3 toyV gPaused 5 "now" (by decide) (by decide) (by decide)
    (by decide) (by decide) (by decide) (by decide) (by decide) (by decide) (by decide)
  exact ⟨h.2.1, h.2.2.2.2.2.2.1, h.2.2.2.2.2.2.2.1, h.2.2.2.2.2.2.2.2.2 (by decide)⟩

end GameStore
